import Mathlib

/-!
Shallow embedding of the Frontier-era Ethereum state-transition engine
(`src/ethereum/frontier/spec.py`) together with the data model it operates
on.  Machine integers of the source (`Uint`, unbounded non-negative, and
`U256`, wrapping modulo 2^256) are modelled as `Nat`, with an explicit
`% 2^256` where the source performs `U256` subtraction that may wrap.
Python `dict` state is modelled as an association list with
first-occurrence lookup/update; Python exceptions (`assert`, `KeyError`,
`IndexError`, `ValueError`) become an `Except Err` result.  Functions that
mutate state in place return the state alongside the `Except` result, so
that mutations performed before a failure persist, exactly as they do for
the in-place Python dictionary.

External collaborators that are not part of the repository's core sources
(keccak256, secp256k1, RLP, the Merkle-Patricia trie, the EVM interpreter
`process_call`, the genesis JSON asset and the bloom filter) are modelled
from the spec as computable stand-ins or as explicit function parameters;
each such definition carries a doc comment saying so.
-/

namespace EthFrontier

/-- Models 20-byte addresses as natural numbers. -/
abbrev Address := Nat

/-- Models 32-byte hashes as natural numbers. -/
abbrev Hash32 := Nat

/-- Trie roots (32 bytes), modelled as natural numbers. -/
abbrev Root := Nat

/-- Models 256-byte log blooms as natural numbers (bit sets). -/
abbrev Bloom := Nat

/-- The modulus of the source's wrapping `U256` type. -/
def U256_MOD : Nat := 2 ^ 256

/-- Embeds `U256` subtraction: the spec's `U256` arithmetic wraps modulo `2^256`. -/
def u256_sub (a b : Nat) : Nat :=
  (a % U256_MOD + (U256_MOD - b % U256_MOD)) % U256_MOD

/-- Python exceptions and the spec's §7 error taxonomy. -/
inductive Err where
  | keyError
  | indexError
  | valueError
  | notImplemented
  | unknownParent
  | headerInvalid
  | genesisInvalid
  | ommerInvalid
  | txInvalid
  | gasOverflow
  | commitmentMismatch
  | signatureInvalid
  | underflow
  deriving Repr, DecidableEq

/-- Embeds `ethereum.frontier.eth_types.Account` (storage elided: none of the core
functions embedded here reads or writes storage directly; it is owned by the
EVM collaborator). -/
structure Account where
  nonce : Nat
  balance : Nat
  code : List Nat
  deriving Repr, DecidableEq

/-- Modelled from the spec: the empty account (nonce 0, balance 0, empty
code), `EMPTY_ACCOUNT` of `eth_types`. -/
def EMPTY_ACCOUNT : Account := { nonce := 0, balance := 0, code := [] }

/-- The world state: a Python `dict` from addresses to accounts, modelled as
an association list with first-occurrence lookup and update. -/
abbrev State := List (Address × Account)

/-- Python `dict` lookup (`state[addr]` modulo the `KeyError` case, which
callers handle explicitly): first matching entry. -/
def State.lookup : State → Address → Option Account
  | [], _ => none
  | (b, acct) :: rest, a => if b = a then some acct else State.lookup rest a

/-- Python `dict` assignment `state[addr] = acct`: replace the first
occurrence, else append a new entry. -/
def State.set : State → Address → Account → State
  | [], a, acct => [(a, acct)]
  | (b, old) :: rest, a, acct =>
    if b = a then (a, acct) :: rest else (b, old) :: State.set rest a acct

/-- Balance of an address, reading an absent address as the empty account. -/
def balanceOf (state : State) (a : Address) : Nat :=
  match State.lookup state a with
  | some acct => acct.balance
  | none => 0

/-- Sum of all balances recorded in the state. -/
def sumBalances (state : State) : Nat :=
  (state.map (fun p => p.2.balance)).sum

/-- Modelled from the spec: `eth_types.add_ether` (not under `src/`).
Credits `amount` wei to `address`; per the spec's data model an absent
address is the empty account, so crediting an absent address creates it
with the credited balance (this is forced by `apply_prealloc`, which seeds
a fresh state through `add_ether`). -/
def add_ether (state : State) (address : Address) (amount : Nat) : State :=
  match State.lookup state address with
  | some acct => State.set state address { acct with balance := acct.balance + amount }
  | none => State.set state address { EMPTY_ACCOUNT with balance := amount }

/-- Modelled from the spec: `eth_types.move_ether` (not under `src/`).
"Transfer `amount` wei from sender to recipient": debits the sender (who
must exist and have sufficient balance, the balance being unsigned) and
credits the recipient. -/
def move_ether (state : State) (sender recipient : Address) (amount : Nat) :
    Except Err State :=
  match State.lookup state sender with
  | none => .error .keyError
  | some acct =>
    if acct.balance < amount then .error .underflow
    else
      let state' := State.set state sender { acct with balance := acct.balance - amount }
      .ok (add_ether state' recipient amount)

/-- Modelled from the spec: `eth_types.modify_state` (not under `src/`).
Applies `f` to the account stored at `address` (a `KeyError` if absent). -/
def modify_state (state : State) (address : Address) (f : Account → Account) :
    Except Err State :=
  match State.lookup state address with
  | none => .error .keyError
  | some acct => .ok (State.set state address (f acct))

/-- Embeds `ethereum.frontier.eth_types.Transaction`.  The source field `to` is a
reserved token in Lean and is rendered `to_addr` here. -/
structure Transaction where
  nonce : Nat
  gas_price : Nat
  gas : Nat
  to_addr : Option Address
  value : Nat
  data : List Nat
  v : Nat
  r : Nat
  s : Nat
  deriving Repr, DecidableEq

/-- Embeds `ethereum.frontier.eth_types.Log`. -/
structure Log where
  address : Address
  topics : List Nat
  data : List Nat
  deriving Repr, DecidableEq

/-- Embeds `ethereum.frontier.eth_types.Header`. -/
structure Header where
  parent_hash : Hash32
  ommers_hash : Hash32
  coinbase : Address
  state_root : Root
  transactions_root : Root
  receipt_root : Root
  bloom : Bloom
  difficulty : Nat
  number : Nat
  gas_limit : Nat
  gas_used : Nat
  timestamp : Nat
  extra_data : List Nat
  mix_digest : Hash32
  nonce : Nat
  deriving Repr, DecidableEq

/-- Embeds `ethereum.frontier.eth_types.Block`. -/
structure Block where
  header : Header
  transactions : List Transaction
  ommers : List Header
  deriving Repr, DecidableEq

/-- Embeds `ethereum.frontier.eth_types.Receipt`. -/
structure Receipt where
  post_state : Root
  cumulative_gas_used : Nat
  bloom : Bloom
  logs : List Log
  deriving Repr, DecidableEq

/-- Embeds `ethereum.frontier.spec.BlockChain`: history and current state. -/
structure BlockChain where
  blocks : List Block
  state : State
  deriving Repr, DecidableEq

/-- Embeds `BLOCK_REWARD = U256(5 * 10 ** 18)`. -/
def BLOCK_REWARD : Nat := 5 * 10 ^ 18

/-- Embeds `GAS_LIMIT_ADJUSTMENT_FACTOR = 1024`. -/
def GAS_LIMIT_ADJUSTMENT_FACTOR : Nat := 1024

/-- Embeds `GAS_LIMIT_MINIMUM = 5000`. -/
def GAS_LIMIT_MINIMUM : Nat := 5000

/-- Embeds `GENESIS_DIFFICULTY = Uint(131072)`. -/
def GENESIS_DIFFICULTY : Nat := 131072

/-- Modelled from the spec: `TX_BASE_COST = 21000` (`eth_types`, not under
`src/`; the spec's intrinsic-cost formula is `21000 + Σ (4 | 68)`). -/
def TX_BASE_COST : Nat := 21000

/-- Modelled from the spec: `TX_DATA_COST_PER_ZERO = 4`. -/
def TX_DATA_COST_PER_ZERO : Nat := 4

/-- Modelled from the spec: `TX_DATA_COST_PER_NON_ZERO = 68`. -/
def TX_DATA_COST_PER_NON_ZERO : Nat := 68

/-- Embeds `calculate_block_difficulty(number, timestamp, parent_timestamp,
parent_difficulty)`. -/
def calculate_block_difficulty (number timestamp parent_timestamp parent_difficulty : Nat) :
    Nat :=
  let max_adjustment_delta := parent_difficulty / 2048
  if number = 0 then GENESIS_DIFFICULTY
  else if timestamp < parent_timestamp + 13 then
    parent_difficulty + max_adjustment_delta
  else
    max GENESIS_DIFFICULTY (parent_difficulty - max_adjustment_delta)

/-- Embeds `check_gas_limit(gas_limit, parent_gas_limit)`. -/
def check_gas_limit (gas_limit parent_gas_limit : Nat) : Bool :=
  let max_adjustment_delta := parent_gas_limit / GAS_LIMIT_ADJUSTMENT_FACTOR
  if gas_limit ≥ parent_gas_limit + max_adjustment_delta then false
  else if gas_limit ≤ parent_gas_limit - max_adjustment_delta then false
  else if gas_limit < GAS_LIMIT_MINIMUM then false
  else true

/-- Embeds `calculate_intrinsic_cost(tx)`: `21000 + Σ over data bytes of
(4 if byte == 0 else 68)`. -/
def calculate_intrinsic_cost (tx : Transaction) : Nat :=
  let data_cost := tx.data.foldl
    (fun acc byte =>
      acc + (if byte = 0 then TX_DATA_COST_PER_ZERO else TX_DATA_COST_PER_NON_ZERO)) 0
  TX_BASE_COST + data_cost

/-- Modelled from the spec: the keccak256/RLP collaborators (§6) are
external primitives; they are represented by one computable stand-in hash
over flat encodings.  Nothing in the embedded core depends on any property
of the hash other than it being a deterministic function of the encoded
value. -/
def natsHash (xs : List Nat) : Nat :=
  xs.foldl (fun a x => (a * 1000003 + x % 2 ^ 64 + 1) % 2 ^ 64) 5381

/-- Flat encoding of a header (an injective stand-in for `rlp.encode`). -/
def encodeHeader (h : Header) : List Nat :=
  [h.parent_hash, h.ommers_hash, h.coinbase, h.state_root, h.transactions_root,
   h.receipt_root, h.bloom, h.difficulty, h.number, h.gas_limit, h.gas_used,
   h.timestamp, h.extra_data.length] ++ h.extra_data ++ [h.mix_digest, h.nonce]

/-- Flat encoding of a transaction (a stand-in for `rlp.encode`). -/
def encodeTransaction (tx : Transaction) : List Nat :=
  [tx.nonce, tx.gas_price, tx.gas,
   (match tx.to_addr with | none => 0 | some a => a + 1),
   tx.value, tx.data.length] ++ tx.data ++ [tx.v, tx.r, tx.s]

/-- Embeds `compute_header_hash(header) = keccak256(rlp.encode(header))`, over the
modelled collaborators. -/
def compute_header_hash (header : Header) : Hash32 :=
  natsHash (encodeHeader header)

/-- Embeds `keccak256(rlp.encode(block))`, over the modelled collaborators. -/
def hashBlock (b : Block) : Hash32 :=
  natsHash (encodeHeader b.header ++ [b.transactions.length]
    ++ b.transactions.flatMap encodeTransaction
    ++ [b.ommers.length] ++ b.ommers.flatMap encodeHeader)

/-- Embeds `keccak256(rlp.encode(ommers))` for a list of headers, over the modelled
collaborators. -/
def hashHeaderList (hs : List Header) : Hash32 :=
  natsHash ([hs.length] ++ hs.flatMap encodeHeader)

/-- Modelled from the spec: the bloom contribution of one log — a 2048-bit
filter indexed by a hash of the log's address and of each topic. -/
def logBloomBits (log : Log) : Nat :=
  log.topics.foldl (fun acc t => acc ||| 2 ^ (natsHash [t] % 2048))
    (2 ^ (natsHash [log.address] % 2048))

/-- Modelled from the spec: `ethereum.frontier.bloom.logs_bloom` (not under
`src/`) — the union of the bloom bits of each log. -/
def logs_bloom (logs : List Log) : Bloom :=
  logs.foldl (fun acc l => acc ||| logBloomBits l) 0

/-- Flat encoding of an account (stand-in for its RLP/trie serialization). -/
def encodeAccount (a : Account) : List Nat :=
  [a.nonce, a.balance, a.code.length] ++ a.code

/-- Modelled from the spec: `trie.root(trie.map_keys(state))` — the secured
Merkle-Patricia root of the state, an external collaborator (§6) modelled as
a deterministic function of the state's entries. -/
def state_root (s : State) : Root :=
  natsHash ([s.length] ++ s.flatMap (fun p => p.1 :: encodeAccount p.2))

/-- Flat encoding of a log. -/
def encodeLog (l : Log) : List Nat :=
  [l.address, l.topics.length] ++ l.topics ++ [l.data.length] ++ l.data

/-- Flat encoding of a receipt. -/
def encodeReceipt (r : Receipt) : List Nat :=
  [r.post_state, r.cumulative_gas_used, r.bloom, r.logs.length]
    ++ r.logs.flatMap encodeLog

/-- Modelled from the spec: the unsecured trie root over the map from
RLP-encoded index to receipt — a deterministic function of the ordered
receipt list. -/
def receipts_root (rs : List Receipt) : Root :=
  natsHash ([rs.length] ++ rs.flatMap encodeReceipt)

/-- Modelled from the spec: the unsecured trie root over the map from
RLP-encoded index to transaction — a deterministic function of the ordered
transaction list. -/
def transactions_root_of (txs : List Transaction) : Root :=
  natsHash ([txs.length] ++ txs.flatMap encodeTransaction)

/-- The order of the secp256k1 curve, as in `recover_sender`. -/
def secp256k1n : Nat :=
  0xFFFFFFFFFFFFFFFFFFFFFFFFFFFFFFFEBAAEDCE6AF48A03BBFD25E8CD0364141

/-- Embeds `signing_hash(tx) = keccak256(rlp((nonce, gas_price, gas, to, value,
data)))`, over the modelled collaborators. -/
def signing_hash (tx : Transaction) : Hash32 :=
  natsHash ([tx.nonce, tx.gas_price, tx.gas,
    (match tx.to_addr with | none => 0 | some a => a + 1),
    tx.value, tx.data.length] ++ tx.data)

/-- Modelled from the spec: the secp256k1 public-key recovery collaborator
(§6), a computable stand-in returning a 64-byte public key as a number. -/
def secp256k1_recover (r s v hash : Nat) : Nat :=
  natsHash [r, s, v, hash]

/-- Embeds `recover_sender(tx)`: checks `v ∈ {27, 28}`, `0 < r < n`, `0 < s < n`,
then takes the last 20 bytes of the keccak of the recovered public key
(modelled as a reduction modulo `2^160`). -/
def recover_sender (tx : Transaction) : Except Err Address :=
  if ¬ (tx.v = 27 ∨ tx.v = 28) then .error .signatureInvalid
  else if ¬ (0 < tx.r ∧ tx.r < secp256k1n) then .error .signatureInvalid
  else if ¬ (0 < tx.s ∧ tx.s < secp256k1n) then .error .signatureInvalid
  else
    let public_key := secp256k1_recover tx.r tx.s (tx.v - 27) (signing_hash tx)
    .ok (natsHash [public_key] % 2 ^ 160)

/-- Embeds `vm.Environment` (the `state` field carries the current, mutable world
state exactly as the Python object does). -/
structure Env where
  caller : Address
  origin : Address
  block_hashes : List Hash32
  coinbase : Address
  number : Nat
  gas_limit : Nat
  gas_price : Nat
  time : Nat
  difficulty : Nat
  state : State

/-- Modelled from the spec §6: the EVM collaborator
`process_call(caller, target, data, value, gas, depth, env) → (gas_left,
logs)`, which also mutates `env.state`.  It is not part of the core and is
taken as an explicit function parameter returning the new state alongside
its results. -/
abbrev Call :=
  Address → Address → List Nat → Nat → Nat → Nat → Env → Nat × List Log × State

/-- Embeds `validate_transaction(tx, env)`: reads `env.state[sender]` — a Python
`dict` subscript, which raises `KeyError` when the sender is absent — and
returns the §4.3 three-condition boolean otherwise. -/
def validate_transaction (tx : Transaction) (env : Env) : Except Err Bool :=
  let sender := env.origin
  match State.lookup env.state sender with
  | none => .error .keyError
  | some acct =>
    .ok (decide (acct.nonce = tx.nonce
      ∧ calculate_intrinsic_cost tx ≤ tx.gas
      ∧ acct.balance ≥ tx.gas * tx.gas_price))

/-- Embeds `process_transaction(env, tx)`.  `gas_used = tx.gas - gas_left` is a
`U256` subtraction and wraps modulo `2^256`; the state returned in the
second component reflects every mutation performed before a failure. -/
def process_transaction (callf : Call) (env : Env) (tx : Transaction) :
    Except Err (Nat × List Log) × State :=
  match validate_transaction tx env with
  | .error e => (.error e, env.state)
  | .ok valid =>
    if ¬ valid then (.error .txInvalid, env.state)
    else
      let sender := env.origin
      let gas := tx.gas - calculate_intrinsic_cost tx
      match tx.to_addr with
      | none => (.error .notImplemented, env.state)
      | some target =>
        match callf sender target tx.data tx.value gas 0 env with
        | (gas_left, logs, state1) =>
          let gas_used := u256_sub tx.gas gas_left
          match move_ether state1 sender env.coinbase (gas_used * tx.gas_price) with
          | .error e => (.error e, state1)
          | .ok state2 =>
            match modify_state state2 sender (fun a => { a with nonce := a.nonce + 1 }) with
            | .error e => (.error e, state2)
            | .ok state3 => (.ok (gas_used, logs), state3)

/-- The transaction loop of `apply_body` (its `for tx in transactions`
body), threading `gas_available`, the receipts list and the in-place
mutated state. -/
def apply_body_loop (callf : Call) (block_hashes : List Hash32) (coinbase : Address)
    (block_number block_gas_limit block_time block_difficulty : Nat) :
    List Transaction → Nat → List Receipt → State →
    Except Err (Nat × List Receipt) × State
  | [], gas_available, receipts, state => (.ok (gas_available, receipts), state)
  | tx :: rest, gas_available, receipts, state =>
    if ¬ (tx.gas ≤ gas_available) then (.error .gasOverflow, state)
    else
      match recover_sender tx with
      | .error e => (.error e, state)
      | .ok sender_address =>
        let env : Env :=
          { caller := sender_address, origin := sender_address,
            block_hashes := block_hashes, coinbase := coinbase, number := block_number,
            gas_limit := block_gas_limit, gas_price := tx.gas_price, time := block_time,
            difficulty := block_difficulty, state := state }
        match process_transaction callf env tx with
        | (.error e, state') => (.error e, state')
        | (.ok (gas_used, logs), state') =>
          let gas_available' := gas_available - gas_used
          let receipt : Receipt :=
            { post_state := state_root state',
              cumulative_gas_used := block_gas_limit - gas_available',
              bloom := logs_bloom logs, logs := logs }
          apply_body_loop callf block_hashes coinbase block_number block_gas_limit
            block_time block_difficulty rest gas_available' (receipts ++ [receipt]) state'

/-- Embeds `pay_rewards(state, block_number, coinbase, ommers)`.  `ommer_age` is a
`Uint` subtraction, modelled by truncated `Nat` subtraction; its call sites
only reach ages validated into `[1, 6]`. -/
def pay_rewards (state : State) (block_number : Nat) (coinbase : Address)
    (ommers : List Header) : State :=
  let miner_reward := BLOCK_REWARD + BLOCK_REWARD * ommers.length / 32
  let state1 := add_ether state coinbase miner_reward
  ommers.foldl (fun st ommer =>
    let ommer_age := block_number - ommer.number
    let ommer_miner_reward := BLOCK_REWARD - BLOCK_REWARD * ommer_age / 8
    add_ether st ommer.coinbase ommer_miner_reward) state1

/-- Embeds `apply_body(state, block_hashes, coinbase, block_number,
block_gas_limit, block_time, block_difficulty, transactions, ommers)`.
The first component is the Python return value (or the raised error); the
second component is the state object after the call, which carries every
in-place mutation even when the call fails.  As in the source, `block_logs`
is initialized empty and never extended by the loop. -/
def apply_body (callf : Call) (state : State) (block_hashes : List Hash32)
    (coinbase : Address) (block_number block_gas_limit block_time block_difficulty : Nat)
    (transactions : List Transaction) (ommers : List Header) :
    Except Err (Nat × Root × Root × Bloom × State) × State :=
  let block_logs : List Log := []
  match apply_body_loop callf block_hashes coinbase block_number block_gas_limit
      block_time block_difficulty transactions block_gas_limit [] state with
  | (.error e, state') => (.error e, state')
  | (.ok (gas_available, receipts), state1) =>
    let state2 :=
      if block_number ≠ 0 then pay_rewards state1 block_number coinbase ommers
      else state1
    let gas_remaining := block_gas_limit - gas_available
    let receipt_root := receipts_root receipts
    let transactions_root := transactions_root_of transactions
    let block_logs_bloom := logs_bloom block_logs
    (.ok (gas_remaining, transactions_root, receipt_root, block_logs_bloom, state2),
     state2)

/-- Python list subscript `xs[i]` with an `int` index: a negative index
counts from the end; out of range raises `IndexError`. -/
def pyGet {α : Type} (xs : List α) (i : Int) : Except Err α :=
  let j : Int := if i < 0 then i + xs.length else i
  if j < 0 then .error .indexError
  else
    match xs.get? j.toNat with
    | some x => .ok x
    | none => .error .indexError

/-- The `for ommer in ommers` body of `validate_ommers`. -/
def validate_ommers_loop (chain : BlockChain) (block_number : Nat) :
    List Header → Except Err Unit
  | [] => .ok ()
  | ommer :: rest =>
    let ommer_age := block_number - ommer.number
    if ¬ (1 ≤ ommer_age ∧ ommer_age ≤ 6) then .error .ommerInvalid
    else
      match pyGet chain.blocks ((chain.blocks.length : Int) - ommer_age) with
      | .error e => .error e
      | .ok equivalent_canonical_block =>
        if compute_header_hash ommer
            = compute_header_hash equivalent_canonical_block.header then
          .error .ommerInvalid
        else if ommer.parent_hash ≠ equivalent_canonical_block.header.parent_hash then
          .error .ommerInvalid
        else validate_ommers_loop chain block_number rest

/-- Embeds `validate_ommers(ommers, expected_ommers_hash, block_number, chain)`. -/
def validate_ommers (ommers : List Header) (expected_ommers_hash : Hash32)
    (block_number : Nat) (chain : BlockChain) : Except Err Unit :=
  if ¬ (ommers.length ≤ 2) then .error .ommerInvalid
  else if hashHeaderList ommers ≠ expected_ommers_hash then .error .ommerInvalid
  else validate_ommers_loop chain block_number ommers

/-- Embeds `validate_header(header, parent_header)` (the proof-of-work check is
commented out in the source). -/
def validate_header (header parent_header : Header) : Except Err Unit :=
  if header.difficulty ≠ calculate_block_difficulty header.number header.timestamp
      parent_header.timestamp parent_header.difficulty then .error .headerInvalid
  else if ¬ check_gas_limit header.gas_limit parent_header.gas_limit then
    .error .headerInvalid
  else if ¬ (header.timestamp > parent_header.timestamp) then .error .headerInvalid
  else if header.number ≠ parent_header.number + 1 then .error .headerInvalid
  else if ¬ (header.extra_data.length ≤ 32) then .error .headerInvalid
  else .ok ()

/-- Embeds `ethereum.genesis.GenesisConfig` (the `alloc` entries carry only a
balance, as `load_genesis_config` builds them). -/
structure GenesisConfig where
  difficulty : Nat
  extra_data : List Nat
  gas_limit : Nat
  nonce : Nat
  timestamp : Nat
  alloc : List (Address × Nat)

/-- Modelled from the spec §6: the mainnet genesis constants
(`difficulty = 0x400000000`, `gas_limit = 5000`, `nonce = 0x…42`,
`timestamp = 0`, a prescribed 32-byte `extra_data`).  The allocation is an
external JSON asset not in the sources; it is represented by a fixed
stand-in value, and no claim below depends on its contents. -/
def MAINNET_GENESIS_CONFIG : GenesisConfig :=
  { difficulty := 0x400000000,
    extra_data := List.replicate 32 17,
    gas_limit := 5000,
    nonce := 0x42,
    timestamp := 0,
    alloc := [] }

/-- Embeds `validate_genesis_header(genesis_header)` (all-zero 32-byte and 20-byte
strings are the number 0 in this model). -/
def validate_genesis_header (genesis_header : Header) : Except Err Unit :=
  if genesis_header.parent_hash ≠ 0 then .error .genesisInvalid
  else if genesis_header.coinbase ≠ 0 then .error .genesisInvalid
  else if genesis_header.difficulty ≠ MAINNET_GENESIS_CONFIG.difficulty then
    .error .genesisInvalid
  else if genesis_header.number ≠ 0 then .error .genesisInvalid
  else if genesis_header.gas_limit ≠ MAINNET_GENESIS_CONFIG.gas_limit then
    .error .genesisInvalid
  else if genesis_header.gas_used ≠ 0 then .error .genesisInvalid
  else if genesis_header.timestamp ≠ MAINNET_GENESIS_CONFIG.timestamp then
    .error .genesisInvalid
  else if genesis_header.extra_data ≠ MAINNET_GENESIS_CONFIG.extra_data then
    .error .genesisInvalid
  else if genesis_header.mix_digest ≠ 0 then .error .genesisInvalid
  else if genesis_header.nonce ≠ MAINNET_GENESIS_CONFIG.nonce then
    .error .genesisInvalid
  else .ok ()

/-- Embeds `apply_prealloc(state, alloc_data)` (the inner single-key assertion is
vacuous in this model, where each entry carries exactly a balance). -/
def apply_prealloc (state : State) (alloc_data : List (Address × Nat)) : State :=
  alloc_data.foldl (fun st p => add_ether st p.1 p.2) state

/-- Embeds `get_block_header_by_hash(hash, chain)`: linear scan for a header whose
`compute_header_hash` matches; `ValueError` when absent. -/
def get_block_header_by_hash (h : Hash32) (chain : BlockChain) : Except Err Header :=
  match chain.blocks.find? (fun b => compute_header_hash b.header = h) with
  | some b => .ok b.header
  | none => .error .valueError

/-- Embeds `get_recent_block_hashes(chain, num_blocks)`.  The slice
`chain.blocks[-(num_blocks - 1):]` keeps the last `num_blocks - 1` blocks —
except that for `num_blocks = 1` the Python slice `[-0:]` is the whole
list, reproduced faithfully here. -/
def get_recent_block_hashes (chain : BlockChain) (num_blocks : Nat) : List Hash32 :=
  if chain.blocks.length = 0 ∨ num_blocks = 0 then []
  else
    match chain.blocks.getLast? with
    | none => []
    | some last =>
      let most_recent_block_hash := hashBlock last
      let recent_blocks :=
        if num_blocks - 1 = 0 then chain.blocks
        else chain.blocks.drop (chain.blocks.length - (num_blocks - 1))
      let recent_block_hashes :=
        most_recent_block_hash
          :: (recent_blocks.reverse.map (fun b => b.header.parent_hash))
      recent_block_hashes.reverse

/-- Embeds `state_transition(chain, block)`.  The first component is the Python
outcome (`None` or the raised error); the second is the chain object after
the call: the block list grows only on success, while the state carries
every in-place mutation performed before a failure. -/
def state_transition (callf : Call) (chain : BlockChain) (block : Block) :
    Except Err Unit × BlockChain :=
  let pre : Except Err BlockChain :=
    if block.header.number = 0 then
      match validate_genesis_header block.header with
      | .error e => .error e
      | .ok _ =>
        .ok { chain with state := apply_prealloc chain.state MAINNET_GENESIS_CONFIG.alloc }
    else
      match get_block_header_by_hash block.header.parent_hash chain with
      | .error e => .error e
      | .ok parent_header =>
        match validate_header block.header parent_header with
        | .error e => .error e
        | .ok _ => .ok chain
  match pre with
  | .error e => (.error e, chain)
  | .ok chain1 =>
    match apply_body callf chain1.state (get_recent_block_hashes chain1 256)
        block.header.coinbase block.header.number block.header.gas_limit
        block.header.timestamp block.header.difficulty
        block.transactions block.ommers with
    | (.error e, state') => (.error e, { chain1 with state := state' })
    | (.ok (gas_used, transactions_root, receipt_root, block_logs_bloom, stateR), state') =>
      let chain2 : BlockChain := { chain1 with state := state' }
      if gas_used ≠ block.header.gas_used then (.error .commitmentMismatch, chain2)
      else
        match validate_ommers block.ommers block.header.ommers_hash
            block.header.number chain2 with
        | .error e => (.error e, chain2)
        | .ok _ =>
          if transactions_root ≠ block.header.transactions_root then
            (.error .commitmentMismatch, chain2)
          else if receipt_root ≠ block.header.receipt_root then
            (.error .commitmentMismatch, chain2)
          else if state_root stateR ≠ block.header.state_root then
            (.error .commitmentMismatch, chain2)
          else if block_logs_bloom ≠ block.header.bloom then
            (.error .commitmentMismatch, chain2)
          else (.ok (), { chain2 with blocks := chain2.blocks ++ [block] })

/-- The miner's reward: `BLOCK_REWARD + ⌊BLOCK_REWARD · |ommers| / 32⌋`. -/
def miner_reward_of (ommers : List Header) : Nat :=
  BLOCK_REWARD + BLOCK_REWARD * ommers.length / 32

/-- An ommer's reward:
`BLOCK_REWARD − ⌊BLOCK_REWARD · (block_number − ommer.number) / 8⌋`. -/
def ommer_reward (block_number : Nat) (o : Header) : Nat :=
  BLOCK_REWARD - BLOCK_REWARD * (block_number - o.number) / 8

/-- The total of all ommer rewards of a block. -/
def total_ommer_rewards (block_number : Nat) (ommers : List Header) : Nat :=
  (ommers.map (ommer_reward block_number)).sum

theorem sumBalances_cons (p : Address × Account) (s : State) :
    sumBalances (p :: s) = p.2.balance + sumBalances s := by
  simp [sumBalances]

theorem lookup_set_self (s : State) (a : Address) (acct : Account) :
    State.lookup (State.set s a acct) a = some acct := by
  induction s with
  | nil => simp [State.set, State.lookup]
  | cons p rest ih =>
    obtain ⟨b, old⟩ := p
    by_cases hb : b = a <;> simp [State.set, State.lookup, hb, ih]

theorem lookup_set_ne (s : State) (a b : Address) (acct : Account) (h : b ≠ a) :
    State.lookup (State.set s a acct) b = State.lookup s b := by
  induction s with
  | nil =>
    simp [State.set, State.lookup, fun hh => h (Eq.symm hh)]
    intro hh
    exact absurd (Eq.symm hh) h
  | cons p rest ih =>
    obtain ⟨c, old⟩ := p
    by_cases hc : c = a
    · subst hc
      have hcb : ¬ (c = b) := fun hh => h (Eq.symm hh)
      simp [State.set, State.lookup, hcb]
    · simp [State.set, State.lookup, hc, ih]

theorem sumBalances_set_present (s : State) (a : Address) (acct acct' : Account)
    (h : State.lookup s a = some acct) :
    sumBalances (State.set s a acct') + acct.balance = sumBalances s + acct'.balance := by
  induction s with
  | nil => simp [State.lookup] at h
  | cons p rest ih =>
    obtain ⟨b, old⟩ := p
    by_cases hb : b = a
    · subst hb
      simp [State.lookup] at h
      subst h
      simp [State.set, sumBalances_cons]
      omega
    · simp [State.lookup, hb] at h
      have := ih h
      simp [State.set, hb, sumBalances_cons]
      omega

theorem sumBalances_set_absent (s : State) (a : Address) (acct' : Account)
    (h : State.lookup s a = none) :
    sumBalances (State.set s a acct') = sumBalances s + acct'.balance := by
  induction s with
  | nil => simp [State.set, sumBalances_cons, sumBalances]
  | cons p rest ih =>
    obtain ⟨b, old⟩ := p
    by_cases hb : b = a
    · subst hb
      simp [State.lookup] at h
    · simp [State.lookup, hb] at h
      have := ih h
      simp [State.set, hb, sumBalances_cons]
      omega

theorem sumBalances_add_ether (s : State) (a : Address) (amount : Nat) :
    sumBalances (add_ether s a amount) = sumBalances s + amount := by
  cases h : State.lookup s a with
  | none =>
    unfold add_ether
    rw [h]
    dsimp only
    simp [sumBalances_set_absent s a _ h, EMPTY_ACCOUNT]
  | some acct =>
    unfold add_ether
    rw [h]
    dsimp only
    have := sumBalances_set_present s a acct
      { acct with balance := acct.balance + amount } h
    simp at this
    omega

theorem lookup_balance_le_sum (s : State) (a : Address) (acct : Account)
    (h : State.lookup s a = some acct) : acct.balance ≤ sumBalances s := by
  induction s with
  | nil => simp [State.lookup] at h
  | cons p rest ih =>
    obtain ⟨b, old⟩ := p
    by_cases hb : b = a
    · subst hb
      simp [State.lookup] at h
      subst h
      simp [sumBalances_cons]
    · simp [State.lookup, hb] at h
      have := ih h
      simp [sumBalances_cons]
      omega

theorem sumBalances_move_ether (s : State) (x y : Address) (amount : Nat) (s' : State)
    (h : move_ether s x y amount = .ok s') : sumBalances s' = sumBalances s := by
  unfold move_ether at h
  cases hl : State.lookup s x with
  | none => rw [hl] at h; exact absurd h (by simp)
  | some acct =>
    rw [hl] at h
    by_cases hb : acct.balance < amount
    · simp [hb] at h
    · simp [hb] at h
      subst h
      have hle : amount ≤ acct.balance := Nat.le_of_not_lt hb
      have hsum := lookup_balance_le_sum s x acct hl
      have hset := sumBalances_set_present s x acct
        { acct with balance := acct.balance - amount } hl
      simp at hset
      rw [sumBalances_add_ether]
      omega

theorem sumBalances_modify_state (s : State) (a : Address) (f : Account → Account)
    (hf : ∀ acct, (f acct).balance = acct.balance) (s' : State)
    (h : modify_state s a f = .ok s') : sumBalances s' = sumBalances s := by
  unfold modify_state at h
  cases hl : State.lookup s a with
  | none => rw [hl] at h; exact absurd h (by simp)
  | some acct =>
    rw [hl] at h
    simp at h
    subst h
    have hset := sumBalances_set_present s a acct (f acct) hl
    rw [hf acct] at hset
    omega

theorem balanceOf_add_ether (s : State) (b : Address) (amount : Nat) (a : Address) :
    balanceOf (add_ether s b amount) a
      = balanceOf s a + (if a = b then amount else 0) := by
  unfold add_ether balanceOf
  cases h : State.lookup s b with
  | none =>
    by_cases hab : a = b
    · subst hab
      rw [lookup_set_self, h]
      simp [EMPTY_ACCOUNT]
    · rw [lookup_set_ne s b a _ hab]
      simp [hab]
  | some acct =>
    by_cases hab : a = b
    · subst hab
      rw [lookup_set_self, h]
      simp
    · rw [lookup_set_ne s b a _ hab]
      simp [hab]

theorem balanceOf_fold_add_ether (f : Header → Nat) (ommers : List Header) :
    ∀ (s : State) (a : Address),
      balanceOf (ommers.foldl (fun st o => add_ether st o.coinbase (f o)) s) a
        = balanceOf s a
          + ((ommers.filter (fun o => decide (o.coinbase = a))).map f).sum := by
  induction ommers with
  | nil => intro s a; simp
  | cons o rest ih =>
    intro s a
    rw [List.foldl_cons, ih, balanceOf_add_ether, List.filter_cons]
    by_cases h : o.coinbase = a
    · subst h
      simp
      omega
    · have h' : ¬ (a = o.coinbase) := fun hh => h hh.symm
      simp [h, h']

theorem sumBalances_fold_add_ether (f : Header → Nat) (ommers : List Header) :
    ∀ s : State,
      sumBalances (ommers.foldl (fun st o => add_ether st o.coinbase (f o)) s)
        = sumBalances s + (ommers.map f).sum := by
  induction ommers with
  | nil => intro s; simp
  | cons o rest ih =>
    intro s
    rw [List.foldl_cons, ih, sumBalances_add_ether]
    simp
    omega

theorem pay_rewards_as_fold (state : State) (block_number : Nat) (coinbase : Address)
    (ommers : List Header) :
    pay_rewards state block_number coinbase ommers
      = ommers.foldl (fun st o => add_ether st o.coinbase (ommer_reward block_number o))
          (add_ether state coinbase (miner_reward_of ommers)) := rfl

theorem sumBalances_pay_rewards (state : State) (block_number : Nat) (coinbase : Address)
    (ommers : List Header) :
    sumBalances (pay_rewards state block_number coinbase ommers)
      = sumBalances state + miner_reward_of ommers
        + total_ommer_rewards block_number ommers := by
  rw [pay_rewards_as_fold, sumBalances_fold_add_ether, sumBalances_add_ether]
  rfl

/-- C6: `calculate_block_difficulty` returns `parent_difficulty +
⌊parent_difficulty / 2048⌋` when `timestamp < parent_timestamp + 13`, and
`max(131072, parent_difficulty − ⌊parent_difficulty / 2048⌋)` otherwise,
for positive block numbers; and `131072` for block number 0. -/
theorem calculate_block_difficulty_spec
    (number timestamp parent_timestamp parent_difficulty : Nat) :
    (number = 0 →
      calculate_block_difficulty number timestamp parent_timestamp parent_difficulty
        = 131072) ∧
    (number > 0 → timestamp < parent_timestamp + 13 →
      calculate_block_difficulty number timestamp parent_timestamp parent_difficulty
        = parent_difficulty + parent_difficulty / 2048) ∧
    (number > 0 → timestamp ≥ parent_timestamp + 13 →
      calculate_block_difficulty number timestamp parent_timestamp parent_difficulty
        = max 131072 (parent_difficulty - parent_difficulty / 2048)) := by
  unfold calculate_block_difficulty GENESIS_DIFFICULTY
  refine ⟨?_, ?_, ?_⟩
  · intro h
    simp [h]
  · intro h ht
    have h0 : ¬ (number = 0) := by omega
    simp [h0, ht]
  · intro h ht
    have h0 : ¬ (number = 0) := by omega
    have ht' : ¬ (timestamp < parent_timestamp + 13) := by omega
    simp [h0, ht']

/-- C6 witness: genesis, the ascending branch at `(1, 5, 0, 131072)` and
the clamped descending branch at `(1, 100, 0, 131072)`. -/
theorem calculate_block_difficulty_spec_witness :
    calculate_block_difficulty 0 100 0 999999 = 131072 ∧
    calculate_block_difficulty 1 5 0 131072 = 131072 + 131072 / 2048 ∧
    calculate_block_difficulty 1 100 0 131072
      = max 131072 (131072 - 131072 / 2048) :=
  ⟨(calculate_block_difficulty_spec 0 100 0 999999).1 (by decide),
   (calculate_block_difficulty_spec 1 5 0 131072).2.1 (by decide) (by decide),
   (calculate_block_difficulty_spec 1 100 0 131072).2.2 (by decide) (by decide)⟩

/-- C7 counterexample: the claim's example says that with parent gas limit
5000000 a child gas limit of 5004882 passes, but `check_gas_limit` rejects
it: `δ = ⌊5000000/1024⌋ = 4882` and the upper bound `gas_limit <
parent + δ = 5004882` is strict. -/
theorem check_gas_limit_claim_example_cex :
    check_gas_limit 5004882 5000000 = false := by decide

/-- C7 (amended): `check_gas_limit(gas_limit, parent_gas_limit)` returns
`true` iff `parent − ⌊parent/1024⌋ < gas_limit < parent + ⌊parent/1024⌋`
(both bounds strict) and `gas_limit ≥ 5000`; with parent 5000000, child
5004881 passes and 5004882 fails. -/
theorem check_gas_limit_spec (gas_limit parent_gas_limit : Nat) :
    (check_gas_limit gas_limit parent_gas_limit = true ↔
      (parent_gas_limit - parent_gas_limit / 1024 < gas_limit ∧
       gas_limit < parent_gas_limit + parent_gas_limit / 1024 ∧
       5000 ≤ gas_limit)) ∧
    check_gas_limit 5004881 5000000 = true ∧
    check_gas_limit 5004882 5000000 = false := by
  refine ⟨?_, by decide, by decide⟩
  unfold check_gas_limit GAS_LIMIT_ADJUSTMENT_FACTOR GAS_LIMIT_MINIMUM
  dsimp only
  split_ifs with h1 h2 h3
  · simp only [Bool.false_eq_true, false_iff]
    omega
  · simp only [Bool.false_eq_true, false_iff]
    omega
  · simp only [Bool.false_eq_true, false_iff]
    omega
  · simp only [true_iff]
    omega

/-- C8: `pay_rewards`, performed by `apply_body` exactly when the block
number is non-zero, credits the coinbase with `BLOCK_REWARD +
⌊BLOCK_REWARD · |ommers| / 32⌋` (where `BLOCK_REWARD = 5·10¹⁸` wei) and
credits each ommer's coinbase with `BLOCK_REWARD − ⌊BLOCK_REWARD ·
(block_number − ommer.number) / 8⌋`, for every list of at most two ommers
whose ages lie in `[1, 6]`. -/
theorem pay_rewards_spec (state : State) (block_number : Nat) (coinbase : Address)
    (ommers : List Header) (h2 : ommers.length ≤ 2)
    (hage : ∀ o ∈ ommers,
      1 ≤ block_number - o.number ∧ block_number - o.number ≤ 6) :
    (∀ a : Address,
      balanceOf (pay_rewards state block_number coinbase ommers) a
        = balanceOf state a
          + (if a = coinbase then miner_reward_of ommers else 0)
          + ((ommers.filter (fun o => decide (o.coinbase = a))).map
              (ommer_reward block_number)).sum) ∧
    (∀ (callf : Call) (bh : List Hash32) (glimit t d : Nat),
      (apply_body callf state bh coinbase block_number glimit t d [] ommers).2
        = if block_number = 0 then state
          else pay_rewards state block_number coinbase ommers) := by
  constructor
  · intro a
    rw [pay_rewards_as_fold, balanceOf_fold_add_ether, balanceOf_add_ether]
  · intro callf bh glimit t d
    unfold apply_body apply_body_loop
    dsimp only
    by_cases h : block_number = 0 <;> simp [h]

/-- A sample ommer header (coinbase 2, number 5). -/
def c8Ommer : Header :=
  { parent_hash := 0, ommers_hash := 0, coinbase := 2, state_root := 0,
    transactions_root := 0, receipt_root := 0, bloom := 0, difficulty := 131072,
    number := 5, gas_limit := 5000, gas_used := 0, timestamp := 3,
    extra_data := [], mix_digest := 0, nonce := 0 }

/-- A one-account sample state. -/
def c8State : State := [(5, { nonce := 0, balance := 1000, code := [] })]

/-- C8 witness: block number 7, coinbase 5, one ommer of age 2. -/
theorem pay_rewards_spec_witness :
    balanceOf (pay_rewards c8State 7 5 [c8Ommer]) 5
      = balanceOf c8State 5
        + (if (5 : Address) = 5 then miner_reward_of [c8Ommer] else 0)
        + (([c8Ommer].filter (fun o => decide (o.coinbase = 5))).map
            (ommer_reward 7)).sum :=
  (pay_rewards_spec c8State 7 5 [c8Ommer] (by decide) (by decide)).1 5

/-- A minimal well-formed genesis-style header for concrete instances. -/
def demoGenesisHeader : Header :=
  { parent_hash := 0, ommers_hash := hashHeaderList [], coinbase := 0,
    state_root := 0, transactions_root := 0, receipt_root := 0, bloom := 0,
    difficulty := 131072, number := 0, gas_limit := 5000000, gas_used := 0,
    timestamp := 0, extra_data := [], mix_digest := 0, nonce := 0 }

/-- The block carrying `demoGenesisHeader`, with no transactions and no
ommers. -/
def demoGenesisBlock : Block :=
  { header := demoGenesisHeader, transactions := [], ommers := [] }

/-- A one-block chain with an empty state. -/
def demoChain1 : BlockChain := { blocks := [demoGenesisBlock], state := [] }

/-- C2 counterexample: on a chain holding exactly one block,
`get_recent_block_hashes(chain, 256)` returns two entries — the stored
(pre-genesis, all-zero) `parent_hash` of the oldest block followed by the
hash of the block itself — not `min(256, 1) = 1` entries as claimed. -/
theorem get_recent_block_hashes_length_cex :
    (get_recent_block_hashes demoChain1 256).length = 2 ∧
    min 256 demoChain1.blocks.length = 1 := by decide

/-- C2 (amended): for every non-empty chain,
`get_recent_block_hashes(chain, 256)` is the `parent_hash` fields of the
last `min(255, n)` blocks in increasing block-number order followed by
`keccak256(rlp(most recent block))`; its length is `min(256, n + 1)`, one
more than claimed for chains shorter than 256 blocks, the extra oldest
entry being the stored `parent_hash` of the oldest included block (the
all-zero pre-genesis hash on short chains). -/
theorem get_recent_block_hashes_spec (chain : BlockChain) (h : chain.blocks ≠ []) :
    get_recent_block_hashes chain 256
      = (chain.blocks.drop (chain.blocks.length - 255)).map
          (fun b => b.header.parent_hash)
        ++ [hashBlock (chain.blocks.getLast h)] ∧
    (get_recent_block_hashes chain 256).length
      = min 256 (chain.blocks.length + 1) := by
  have hlen : chain.blocks.length ≠ 0 := by simpa using h
  have hmain : get_recent_block_hashes chain 256
      = (chain.blocks.drop (chain.blocks.length - 255)).map
          (fun b => b.header.parent_hash)
        ++ [hashBlock (chain.blocks.getLast h)] := by
    unfold get_recent_block_hashes
    have hcond : ¬ (chain.blocks.length = 0 ∨ 256 = 0) := by omega
    rw [if_neg hcond, List.getLast?_eq_getLast chain.blocks h]
    dsimp only
    rw [if_neg (by decide : ¬ (256 - 1 = 0))]
    rw [List.map_reverse, List.reverse_cons, List.reverse_reverse]
  refine ⟨hmain, ?_⟩
  rw [hmain]
  simp [List.length_drop]
  omega

/-- C2 witness: the amended description instantiated on the one-block
chain. -/
theorem get_recent_block_hashes_spec_witness :
    get_recent_block_hashes demoChain1 256
      = (demoChain1.blocks.drop (demoChain1.blocks.length - 255)).map
          (fun b => b.header.parent_hash)
        ++ [hashBlock (demoChain1.blocks.getLast (by decide))] ∧
    (get_recent_block_hashes demoChain1 256).length
      = min 256 (demoChain1.blocks.length + 1) :=
  get_recent_block_hashes_spec demoChain1 (by decide)

/-- A transaction whose signature fields are in range. -/
def c4Tx : Transaction :=
  { nonce := 0, gas_price := 1, gas := 21000, to_addr := some 2, value := 0,
    data := [], v := 27, r := 1, s := 1 }

/-- An environment whose state is empty, so that the transaction's sender
has no entry. -/
def c4Env : Env :=
  { caller := 5, origin := 5, block_hashes := [], coinbase := 7, number := 1,
    gas_limit := 100000, gas_price := 1, time := 5, difficulty := 131072,
    state := [] }

/-- C4: when the recovered sender has no entry in the state,
`validate_transaction` does not evaluate the §4.3 conditions over the empty
account — the `env.state[sender]` dictionary subscript raises `KeyError`,
so the whole transition fails on the lookup itself rather than returning a
boolean. -/
theorem validate_transaction_absent_sender_keyerror :
    validate_transaction c4Tx c4Env = .error .keyError ∧
    State.lookup c4Env.state c4Env.origin = none := ⟨rfl, rfl⟩

/-- A trivial instance of the EVM collaborator: spends no gas, emits no
logs, leaves the state untouched.  Used only to instantiate theorems that
quantify over the collaborator. -/
def trivialCall : Call := fun _ _ _ _ gas _ env => (gas, [], env.state)

/-- A block at height 1 on top of `demoGenesisBlock` whose header passes
parent lookup and header validation, whose body (no transactions, no
ommers) executes successfully — paying the block reward to coinbase 9 —
and whose `gas_used` field is deliberately wrong (1 instead of 0), so the
first commitment assertion fails after the state was already mutated. -/
def c1Block : Block :=
  { header :=
      { parent_hash := compute_header_hash demoGenesisHeader,
        ommers_hash := hashHeaderList [], coinbase := 9, state_root := 0,
        transactions_root := 0, receipt_root := 0, bloom := 0,
        difficulty := 131136, number := 1, gas_limit := 5000000, gas_used := 1,
        timestamp := 5, extra_data := [], mix_digest := 0, nonce := 0 },
    transactions := [], ommers := [] }

/-- C1: rejection is NOT atomic.  On `c1Block` the transition fails (with a
commitment mismatch on `gas_used`), the block list is unchanged, but the
state after the call differs from the state before it: `apply_body` already
credited the block reward to the coinbase in place before the assertion
ran. -/
theorem state_transition_mutates_state_on_failure :
    (state_transition trivialCall demoChain1 c1Block).1
      = .error .commitmentMismatch ∧
    (state_transition trivialCall demoChain1 c1Block).2.blocks
      = demoChain1.blocks ∧
    (state_transition trivialCall demoChain1 c1Block).2.state
      ≠ demoChain1.state ∧
    balanceOf (state_transition trivialCall demoChain1 c1Block).2.state 9
      = BLOCK_REWARD := by
  refine ⟨rfl, rfl, by decide, rfl⟩

/-- A sample log entry. -/
def demoLog : Log := { address := 3, topics := [], data := [] }

/-- An instance of the EVM collaborator that emits one log and spends no
gas. -/
def logCall : Call := fun _ _ _ _ gas _ env => (gas, [demoLog], env.state)

/-- A minimal valid transaction: empty data, gas price 0, gas equal to the
intrinsic cost. -/
def c3Tx : Transaction :=
  { nonce := 0, gas_price := 0, gas := 21000, to_addr := some 2, value := 0,
    data := [], v := 27, r := 1, s := 1 }

/-- The sender address recovered from `c3Tx`. -/
def c3Sender : Address :=
  match recover_sender c3Tx with
  | .ok a => a
  | .error _ => 0

/-- A state funding `c3Tx`'s sender. -/
def c3State : State := [(c3Sender, { nonce := 0, balance := 10 ^ 18, code := [] })]

/-- Extracts the block-logs bloom from an `apply_body` result. -/
def bodyBloom (r : Except Err (Nat × Root × Root × Bloom × State)) : Option Bloom :=
  match r with
  | .ok (_, _, _, bl, _) => some bl
  | .error _ => none

/-- Extracts the gas used from an `apply_body` result. -/
def bodyGasUsed (r : Except Err (Nat × Root × Root × Bloom × State)) : Option Nat :=
  match r with
  | .ok (gu, _, _, _, _) => some gu
  | .error _ => none

set_option maxRecDepth 4000 in
/-- C3: the block-logs bloom returned by `apply_body` is NOT the bloom of
the logs emitted by the block's transactions: the source initializes
`block_logs` to the empty tuple and never extends it, so the returned
bloom is always `logs_bloom(())`.  Here one transaction executes (using
21000 gas) and its call emits `demoLog`, whose bloom differs from the
empty bloom, yet the returned block bloom is the empty one. -/
theorem apply_body_block_bloom_ignores_logs :
    bodyBloom (apply_body logCall c3State [] 7 1 100000 5 131072 [c3Tx] []).1
      = some (logs_bloom []) ∧
    bodyGasUsed (apply_body logCall c3State [] 7 1 100000 5 131072 [c3Tx] []).1
      = some 21000 ∧
    logs_bloom [demoLog] ≠ logs_bloom [] := by
  refine ⟨rfl, rfl, by decide⟩

theorem process_transaction_conserves (callf : Call)
    (hconserve : ∀ sender target data value gas depth env,
      sumBalances (callf sender target data value gas depth env).2.2
        = sumBalances env.state)
    (env : Env) (tx : Transaction) (gu : Nat) (logs : List Log) (st' : State)
    (h : process_transaction callf env tx = (.ok (gu, logs), st')) :
    sumBalances st' = sumBalances env.state := by
  unfold process_transaction at h
  cases hv : validate_transaction tx env with
  | error e => rw [hv] at h; simp at h
  | ok valid =>
    rw [hv] at h
    cases valid with
    | false => simp at h
    | true =>
      dsimp only at h
      rw [if_neg (by simp)] at h
      cases hto : tx.to_addr with
      | none => rw [hto] at h; simp at h
      | some target =>
        rw [hto] at h
        dsimp only at h
        rcases hc : callf env.origin target tx.data tx.value
            (tx.gas - calculate_intrinsic_cost tx) 0 env with ⟨gas_left, logs1, state1⟩
        rw [hc] at h
        dsimp only at h
        cases hm : move_ether state1 env.origin env.coinbase
            (u256_sub tx.gas gas_left * tx.gas_price) with
        | error e => rw [hm] at h; simp at h
        | ok state2 =>
          rw [hm] at h
          dsimp only at h
          cases hmod : modify_state state2 env.origin
              (fun a => { a with nonce := a.nonce + 1 }) with
          | error e => rw [hmod] at h; simp at h
          | ok state3 =>
            rw [hmod] at h
            simp at h
            have h1 := hconserve env.origin target tx.data tx.value
              (tx.gas - calculate_intrinsic_cost tx) 0 env
            rw [hc] at h1
            have h2 := sumBalances_move_ether state1 env.origin env.coinbase
              (u256_sub tx.gas gas_left * tx.gas_price) state2 hm
            have h3 := sumBalances_modify_state state2 env.origin
              (fun a => { a with nonce := a.nonce + 1 }) (fun acct => rfl) state3 hmod
            rw [← h.2, h3, h2]
            simpa using h1

theorem apply_body_loop_conserves (callf : Call)
    (hconserve : ∀ sender target data value gas depth env,
      sumBalances (callf sender target data value gas depth env).2.2
        = sumBalances env.state)
    (bh : List Hash32) (cb : Address) (bn gl t d : Nat) :
    ∀ (txs : List Transaction) (ga : Nat) (rs : List Receipt) (st : State)
      (res : Nat × List Receipt) (st' : State),
      apply_body_loop callf bh cb bn gl t d txs ga rs st = (.ok res, st') →
      sumBalances st' = sumBalances st := by
  intro txs
  induction txs with
  | nil =>
    intro ga rs st res st' h
    unfold apply_body_loop at h
    simp at h
    rw [h.2]
  | cons tx rest ih =>
    intro ga rs st res st' h
    unfold apply_body_loop at h
    by_cases hga : tx.gas ≤ ga
    · rw [if_neg (by simpa using hga)] at h
      cases hr : recover_sender tx with
      | error e => rw [hr] at h; simp at h
      | ok sender_address =>
        rw [hr] at h
        dsimp only at h
        rcases hp : process_transaction callf
            { caller := sender_address, origin := sender_address,
              block_hashes := bh, coinbase := cb, number := bn,
              gas_limit := gl, gas_price := tx.gas_price, time := t,
              difficulty := d, state := st } tx with ⟨pres, pst⟩
        rw [hp] at h
        cases pres with
        | error e => simp at h
        | ok pair =>
          rcases pair with ⟨gas_used, logs⟩
          dsimp only at h
          have hrec := ih _ _ _ _ _ h
          have hpt := process_transaction_conserves callf hconserve _ tx
            gas_used logs pst hp
          rw [hrec]
          exact hpt
    · rw [if_pos (by simpa using hga)] at h
      simp at h

theorem apply_body_ok_conserves (callf : Call)
    (hconserve : ∀ sender target data value gas depth env,
      sumBalances (callf sender target data value gas depth env).2.2
        = sumBalances env.state)
    (st : State) (bh : List Hash32) (cb : Address) (bn gl t d : Nat)
    (txs : List Transaction) (ommers : List Header)
    (gu : Nat) (tr rr : Root) (bl : Bloom) (st2 : State)
    (h : (apply_body callf st bh cb bn gl t d txs ommers).1
      = .ok (gu, tr, rr, bl, st2)) :
    sumBalances st2
      = sumBalances st
        + (if bn = 0 then 0
           else miner_reward_of ommers + total_ommer_rewards bn ommers) ∧
    (apply_body callf st bh cb bn gl t d txs ommers).2 = st2 := by
  rcases hb : apply_body callf st bh cb bn gl t d txs ommers with ⟨bres, bst⟩
  rw [hb] at h
  dsimp only at h
  subst h
  unfold apply_body at hb
  rcases hl : apply_body_loop callf bh cb bn gl t d txs gl [] st with ⟨lres, st1⟩
  rw [hl] at hb
  cases lres with
  | error e => simp at hb
  | ok pair =>
    rcases pair with ⟨ga, receipts⟩
    dsimp only at hb
    have hloop := apply_body_loop_conserves callf hconserve bh cb bn gl t d
      txs gl [] st (ga, receipts) st1 hl
    simp at hb
    by_cases hbn : bn = 0
    · rw [if_pos hbn] at hb
      refine ⟨?_, ?_⟩
      · rw [if_pos hbn, ← hb.1.2.2.2.2, hloop]
        omega
      · dsimp only
        rw [← hb.2]
        exact hb.1.2.2.2.2
    · rw [if_neg hbn] at hb
      refine ⟨?_, ?_⟩
      · rw [if_neg hbn, ← hb.1.2.2.2.2, sumBalances_pay_rewards, hloop]
        omega
      · dsimp only
        rw [← hb.2]
        exact hb.1.2.2.2.2

/-- C5: balance conservation.  For every block successfully applied by
`state_transition` with a non-zero block number, assuming the EVM
collaborator conserves the sum of balances, the sum of all balances after
the block equals the sum before plus the miner reward plus the ommer
rewards.  Gas fees move value from senders to the coinbase through
`move_ether` and are not destroyed. -/
theorem balance_conservation (callf : Call)
    (hconserve : ∀ sender target data value gas depth env,
      sumBalances (callf sender target data value gas depth env).2.2
        = sumBalances env.state)
    (chain : BlockChain) (block : Block)
    (hnum : block.header.number ≠ 0)
    (hok : (state_transition callf chain block).1 = .ok ()) :
    sumBalances (state_transition callf chain block).2.state
      = sumBalances chain.state + miner_reward_of block.ommers
        + total_ommer_rewards block.header.number block.ommers := by
  rcases hst : state_transition callf chain block with ⟨res, chain'⟩
  rw [hst] at hok
  dsimp only at hok
  subst hok
  unfold state_transition at hst
  rw [if_neg hnum] at hst
  cases hp : get_block_header_by_hash block.header.parent_hash chain with
  | error e => rw [hp] at hst; simp at hst
  | ok parent =>
    rw [hp] at hst
    dsimp only at hst
    cases hv : validate_header block.header parent with
    | error e => rw [hv] at hst; simp at hst
    | ok u =>
      rw [hv] at hst
      dsimp only at hst
      rcases hb : apply_body callf chain.state (get_recent_block_hashes chain 256)
          block.header.coinbase block.header.number block.header.gas_limit
          block.header.timestamp block.header.difficulty
          block.transactions block.ommers with ⟨bres, bst⟩
      rw [hb] at hst
      cases bres with
      | error e => simp at hst
      | ok tuple =>
        rcases tuple with ⟨gu, tr, rr, bl, stR⟩
        dsimp only at hst
        by_cases hgu : gu ≠ block.header.gas_used
        · rw [if_pos hgu] at hst; simp at hst
        · rw [if_neg hgu] at hst
          cases ho : validate_ommers block.ommers block.header.ommers_hash
              block.header.number { chain with state := bst } with
          | error e => rw [ho] at hst; simp at hst
          | ok u2 =>
            rw [ho] at hst
            dsimp only at hst
            by_cases htr : tr ≠ block.header.transactions_root
            · rw [if_pos htr] at hst; simp at hst
            · rw [if_neg htr] at hst
              by_cases hrr : rr ≠ block.header.receipt_root
              · rw [if_pos hrr] at hst; simp at hst
              · rw [if_neg hrr] at hst
                by_cases hsr : state_root stR ≠ block.header.state_root
                · rw [if_pos hsr] at hst; simp at hst
                · rw [if_neg hsr] at hst
                  by_cases hbl : bl ≠ block.header.bloom
                  · rw [if_pos hbl] at hst; simp at hst
                  · rw [if_neg hbl] at hst
                    simp at hst
                    have hcons := apply_body_ok_conserves callf hconserve
                      chain.state (get_recent_block_hashes chain 256)
                      block.header.coinbase block.header.number
                      block.header.gas_limit block.header.timestamp
                      block.header.difficulty block.transactions block.ommers
                      gu tr rr bl stR (by rw [hb])
                    have hbst : bst = stR := by
                      have := hcons.2
                      rw [hb] at this
                      exact this
                    have hchain : chain'.state = bst := by
                      rw [← hst]
                    rw [hchain, hbst, hcons.1, if_neg hnum]
                    omega

/-- A transaction paying gas price 2 with gas equal to its intrinsic
cost. -/
def c5Tx : Transaction :=
  { nonce := 0, gas_price := 2, gas := 21000, to_addr := some 2, value := 0,
    data := [], v := 28, r := 5, s := 7 }

/-- The sender address recovered from `c5Tx`. -/
def c5Sender : Address :=
  match recover_sender c5Tx with
  | .ok a => a
  | .error _ => 0

/-- A state funding `c5Tx`'s sender. -/
def c5State : State := [(c5Sender, { nonce := 0, balance := 10 ^ 18, code := [] })]

/-- A one-block chain carrying `c5State`. -/
def c5PreChain : BlockChain := { blocks := [demoGenesisBlock], state := c5State }

/-- The body execution of the block below, used to fill in its header
commitments. -/
def c5BodyRun : Except Err (Nat × Root × Root × Bloom × State) × State :=
  apply_body trivialCall c5PreChain.state (get_recent_block_hashes c5PreChain 256)
    9 1 5000000 5 131136 [c5Tx] []

/-- A header at height 1 whose commitment fields are the values its own
body execution produces, so that every assertion of `state_transition`
passes. -/
def c5Header : Header :=
  { parent_hash := compute_header_hash demoGenesisHeader,
    ommers_hash := hashHeaderList [],
    coinbase := 9,
    state_root :=
      (match c5BodyRun.1 with
       | .ok (_, _, _, _, stR) => state_root stR
       | .error _ => 0),
    transactions_root :=
      (match c5BodyRun.1 with
       | .ok (_, tr, _, _, _) => tr
       | .error _ => 0),
    receipt_root :=
      (match c5BodyRun.1 with
       | .ok (_, _, rr, _, _) => rr
       | .error _ => 0),
    bloom :=
      (match c5BodyRun.1 with
       | .ok (_, _, _, bl, _) => bl
       | .error _ => 0),
    difficulty := 131136, number := 1, gas_limit := 5000000,
    gas_used :=
      (match c5BodyRun.1 with
       | .ok (gu, _, _, _, _) => gu
       | .error _ => 0),
    timestamp := 5, extra_data := [], mix_digest := 0, nonce := 0 }

/-- The valid block built on `c5Header`. -/
def c5Block : Block :=
  { header := c5Header, transactions := [c5Tx], ommers := [] }

/-- C5 witness: the conservation equation instantiated on a concrete,
successfully applied one-transaction block. -/
theorem balance_conservation_witness :
    sumBalances (state_transition trivialCall c5PreChain c5Block).2.state
      = sumBalances c5PreChain.state + miner_reward_of c5Block.ommers
        + total_ommer_rewards c5Block.header.number c5Block.ommers :=
  balance_conservation trivialCall (fun _ _ _ _ _ _ _ => rfl) c5PreChain c5Block
    (by decide) (by rfl)

/-- The §4.7 per-ommer condition: age in `[1, 6]`, a canonical ancestor at
depth `age` exists, the ommer is not that canonical header, and its
`parent_hash` equals the ancestor's `parent_hash`. -/
def valid_ommer_b (chain : BlockChain) (block_number : Nat) (o : Header) : Bool :=
  decide (1 ≤ block_number - o.number) && decide (block_number - o.number ≤ 6) &&
  (match chain.blocks.get? (chain.blocks.length - (block_number - o.number)) with
   | some a =>
     decide (compute_header_hash o ≠ compute_header_hash a.header) &&
     decide (o.parent_hash = a.header.parent_hash)
   | none => false)

theorem pyGet_of_sub {α : Type} (xs : List α) (k : Nat) (h1 : 1 ≤ k)
    (h2 : k ≤ xs.length) :
    ∃ a, pyGet xs ((xs.length : Int) - k) = .ok a
      ∧ xs.get? (xs.length - k) = some a := by
  have hidx : ((xs.length : Int) - k) = ((xs.length - k : Nat) : Int) := by omega
  have hlt : xs.length - k < xs.length := by omega
  refine ⟨xs.get ⟨xs.length - k, hlt⟩, ?_, List.get?_eq_get hlt⟩
  unfold pyGet
  rw [hidx]
  have hnn : ¬ (((xs.length - k : Nat) : Int) < 0) := by omega
  rw [if_neg hnn, if_neg hnn, Int.toNat_natCast, List.get?_eq_get hlt]

theorem validate_ommers_loop_iff (chain : BlockChain) (block_number : Nat) :
    ∀ ommers : List Header,
      (∀ o ∈ ommers, block_number - o.number ≤ chain.blocks.length) →
      (validate_ommers_loop chain block_number ommers = .ok () ↔
        ∀ o ∈ ommers, valid_ommer_b chain block_number o = true) := by
  intro ommers
  induction ommers with
  | nil => intro _; simp [validate_ommers_loop]
  | cons o rest ih =>
    intro hlen
    unfold validate_ommers_loop
    by_cases hage : 1 ≤ block_number - o.number ∧ block_number - o.number ≤ 6
    · rw [if_neg (not_not_intro hage)]
      obtain ⟨a, hpg, hget⟩ := pyGet_of_sub chain.blocks (block_number - o.number)
        hage.1 (hlen o (List.mem_cons_self o rest))
      rw [hpg]
      dsimp only
      by_cases hh : compute_header_hash o = compute_header_hash a.header
      · rw [if_pos hh]
        constructor
        · intro hfalse
          exact absurd hfalse (by simp)
        · intro hall
          have ho := hall o (List.mem_cons_self o rest)
          unfold valid_ommer_b at ho
          rw [hget] at ho
          simp [hh, Bool.and_eq_true, decide_eq_true_iff] at ho
      · rw [if_neg hh]
        by_cases hph : o.parent_hash = a.header.parent_hash
        · rw [if_neg (not_not_intro hph)]
          rw [ih (fun o' ho' => hlen o' (List.mem_cons_of_mem o ho'))]
          constructor
          · intro hrest o' ho'
            rcases List.mem_cons.mp ho' with h1 | h2
            · subst h1
              unfold valid_ommer_b
              rw [hget]
              simp [hh, hph, hage.1, hage.2]
            · exact hrest o' h2
          · intro hall o' ho'
            exact hall o' (List.mem_cons_of_mem o ho')
        · rw [if_pos hph]
          constructor
          · intro hfalse
            exact absurd hfalse (by simp)
          · intro hall
            have ho := hall o (List.mem_cons_self o rest)
            unfold valid_ommer_b at ho
            rw [hget] at ho
            simp [hph, Bool.and_eq_true, decide_eq_true_iff] at ho
    · rw [if_pos hage]
      constructor
      · intro hfalse
        exact absurd hfalse (by simp)
      · intro hall
        have ho := hall o (List.mem_cons_self o rest)
        unfold valid_ommer_b at ho
        simp [Bool.and_eq_true, decide_eq_true_iff] at ho
        obtain ⟨⟨ha1, ha2⟩, _⟩ := ho
        exact (hage ⟨ha1, by omega⟩).elim

/-- C9: `validate_ommers(ommers, expected_ommers_hash, block_number,
chain)` succeeds iff there are at most 2 ommers, the hash of the ommers
list matches `expected_ommers_hash`, and every ommer has age in `[1, 6]`,
differs from the canonical ancestor header at that depth
(`chain.blocks[len − age]`), and carries that ancestor's `parent_hash`
(stated under the hypothesis that each ommer's age does not exceed the
chain length, so the canonical-ancestor index is well defined). -/
theorem validate_ommers_iff (ommers : List Header) (expected_ommers_hash : Hash32)
    (block_number : Nat) (chain : BlockChain)
    (hlen : ∀ o ∈ ommers, block_number - o.number ≤ chain.blocks.length) :
    validate_ommers ommers expected_ommers_hash block_number chain = .ok () ↔
      (ommers.length ≤ 2 ∧ hashHeaderList ommers = expected_ommers_hash ∧
       ∀ o ∈ ommers, valid_ommer_b chain block_number o = true) := by
  unfold validate_ommers
  by_cases h2 : ommers.length ≤ 2
  · rw [if_neg (not_not_intro h2)]
    by_cases hh : hashHeaderList ommers = expected_ommers_hash
    · rw [if_neg (not_not_intro hh)]
      rw [validate_ommers_loop_iff chain block_number ommers hlen]
      simp [h2, hh]
    · rw [if_pos hh]
      simp [hh]
  · rw [if_pos h2]
    simp [h2]

/-- A canonical block at height 1 on top of `demoGenesisBlock`. -/
def c9BlockA : Block :=
  { header :=
      { parent_hash := compute_header_hash demoGenesisHeader,
        ommers_hash := hashHeaderList [], coinbase := 4, state_root := 0,
        transactions_root := 0, receipt_root := 0, bloom := 0,
        difficulty := 131136, number := 1, gas_limit := 5000000, gas_used := 0,
        timestamp := 5, extra_data := [], mix_digest := 0, nonce := 0 },
    transactions := [], ommers := [] }

/-- A two-block chain: genesis and `c9BlockA`. -/
def c9Chain : BlockChain := { blocks := [demoGenesisBlock, c9BlockA], state := [] }

/-- A sibling of `c9BlockA`: same `parent_hash` and number, different
coinbase, hence a different header hash. -/
def c9Ommer : Header :=
  { parent_hash := compute_header_hash demoGenesisHeader,
    ommers_hash := hashHeaderList [], coinbase := 8, state_root := 0,
    transactions_root := 0, receipt_root := 0, bloom := 0,
    difficulty := 131136, number := 1, gas_limit := 5000000, gas_used := 0,
    timestamp := 5, extra_data := [], mix_digest := 0, nonce := 0 }

/-- C9 witness: a valid age-1 ommer at block number 2 is accepted, by the
backward direction of the characterization. -/
theorem validate_ommers_iff_witness :
    validate_ommers [c9Ommer] (hashHeaderList [c9Ommer]) 2 c9Chain = .ok () :=
  (validate_ommers_iff [c9Ommer] (hashHeaderList [c9Ommer]) 2 c9Chain
    (by decide)).mpr (by decide)

/-- Wrap-free case: `U256` subtraction is exact subtraction when no wrap
occurs. -/
theorem u256_sub_exact (a b : Nat) (hb : b ≤ a) (ha : a < U256_MOD) :
    u256_sub a b = a - b := by
  unfold u256_sub
  have hbm : b % U256_MOD = b := Nat.mod_eq_of_lt (lt_of_le_of_lt hb ha)
  have ham : a % U256_MOD = a := Nat.mod_eq_of_lt ha
  rw [hbm, ham]
  have hM : 0 < U256_MOD := by unfold U256_MOD; positivity
  have h1 : a + (U256_MOD - b) = U256_MOD + (a - b) := by omega
  rw [h1, Nat.add_mod_left]
  exact Nat.mod_eq_of_lt (by omega)

theorem process_transaction_gas_le (callf : Call)
    (hcall : ∀ sender target data value gas depth env,
      (callf sender target data value gas depth env).1 ≤ gas)
    (env : Env) (tx : Transaction) (hgas : tx.gas < U256_MOD)
    (gu : Nat) (logs : List Log) (st' : State)
    (h : process_transaction callf env tx = (.ok (gu, logs), st')) :
    gu ≤ tx.gas := by
  unfold process_transaction at h
  cases hv : validate_transaction tx env with
  | error e => rw [hv] at h; simp at h
  | ok valid =>
    rw [hv] at h
    cases valid with
    | false => simp at h
    | true =>
      dsimp only at h
      rw [if_neg (by simp)] at h
      cases hto : tx.to_addr with
      | none => rw [hto] at h; simp at h
      | some target =>
        rw [hto] at h
        dsimp only at h
        rcases hc : callf env.origin target tx.data tx.value
            (tx.gas - calculate_intrinsic_cost tx) 0 env with ⟨gas_left, logs1, state1⟩
        rw [hc] at h
        dsimp only at h
        have hgl : gas_left ≤ tx.gas := by
          have := hcall env.origin target tx.data tx.value
            (tx.gas - calculate_intrinsic_cost tx) 0 env
          rw [hc] at this
          exact le_trans this (Nat.sub_le _ _)
        cases hm : move_ether state1 env.origin env.coinbase
            (u256_sub tx.gas gas_left * tx.gas_price) with
        | error e => rw [hm] at h; simp at h
        | ok state2 =>
          rw [hm] at h
          dsimp only at h
          cases hmod : modify_state state2 env.origin
              (fun a => { a with nonce := a.nonce + 1 }) with
          | error e => rw [hmod] at h; simp at h
          | ok state3 =>
            rw [hmod] at h
            simp at h
            rw [← h.1.1, u256_sub_exact tx.gas gas_left hgl hgas]
            exact Nat.sub_le _ _

/-- Checks, receipt by receipt against the paired transaction, that
cumulative gas is nondecreasing starting from `prev`, grows by at most the
transaction's gas, and stays within `limit`; `false` on length mismatch. -/
def CumsOk (limit : Nat) : Nat → List Receipt → List Transaction → Bool
  | _, [], [] => true
  | prev, r :: rs, tx :: txs =>
    decide (prev ≤ r.cumulative_gas_used) &&
    decide (r.cumulative_gas_used ≤ prev + tx.gas) &&
    decide (r.cumulative_gas_used ≤ limit) &&
    CumsOk limit r.cumulative_gas_used rs txs
  | _, _, _ => false

theorem apply_body_loop_gas_invariant (callf : Call)
    (hcall : ∀ sender target data value gas depth env,
      (callf sender target data value gas depth env).1 ≤ gas)
    (bh : List Hash32) (cb : Address) (bn gl t d : Nat) :
    ∀ (txs : List Transaction) (ga : Nat) (rs : List Receipt) (st : State)
      (ga' : Nat) (rs' : List Receipt) (st' : State),
      (∀ tx ∈ txs, tx.gas < U256_MOD) → ga ≤ gl →
      apply_body_loop callf bh cb bn gl t d txs ga rs st = (.ok (ga', rs'), st') →
      ga' ≤ ga ∧ ∃ new, rs' = rs ++ new ∧ CumsOk gl (gl - ga) new txs = true := by
  intro txs
  induction txs with
  | nil =>
    intro ga rs st ga' rs' st' _ hga h
    unfold apply_body_loop at h
    simp at h
    exact ⟨le_of_eq h.1.1.symm, [], by simp [← h.1.2], rfl⟩
  | cons tx rest ih =>
    intro ga rs st ga' rs' st' hgas hga h
    unfold apply_body_loop at h
    by_cases hle : tx.gas ≤ ga
    · rw [if_neg (not_not_intro hle)] at h
      cases hr : recover_sender tx with
      | error e => rw [hr] at h; simp at h
      | ok sender_address =>
        rw [hr] at h
        dsimp only at h
        rcases hp : process_transaction callf
            { caller := sender_address, origin := sender_address,
              block_hashes := bh, coinbase := cb, number := bn,
              gas_limit := gl, gas_price := tx.gas_price, time := t,
              difficulty := d, state := st } tx with ⟨pres, pst⟩
        rw [hp] at h
        cases pres with
        | error e => simp at h
        | ok pair =>
          rcases pair with ⟨gas_used, logs⟩
          dsimp only at h
          have hgu : gas_used ≤ tx.gas := process_transaction_gas_le callf hcall
            _ tx (hgas tx (List.mem_cons_self tx rest)) gas_used logs pst hp
          obtain ⟨hle2, new2, hnew2, hcums2⟩ := ih (ga - gas_used) (rs ++ [_]) pst
            ga' rs' st' (fun tx2 htx2 => hgas tx2 (List.mem_cons_of_mem tx htx2))
            (le_trans (Nat.sub_le _ _) hga) h
          refine ⟨le_trans hle2 (Nat.sub_le _ _),
            ({ post_state := state_root pst,
               cumulative_gas_used := gl - (ga - gas_used),
               bloom := logs_bloom logs, logs := logs } : Receipt) :: new2, ?_, ?_⟩
          · simp [hnew2]
          · unfold CumsOk
            dsimp only
            rw [Bool.and_eq_true, Bool.and_eq_true, Bool.and_eq_true]
            exact ⟨⟨⟨decide_eq_true (by omega), decide_eq_true (by omega)⟩,
              decide_eq_true (by omega)⟩, hcums2⟩
    · rw [if_pos hle] at h
      simp at h

/-- C10: gas accounting of the `apply_body` transaction loop.  Assuming the
EVM collaborator never returns more gas than it was given, and that each
transaction's `gas` respects the `U256` bound, a successful loop run
satisfies: each receipt's `cumulative_gas_used` is nondecreasing, exceeds
its predecessor by at most that transaction's gas (so each transaction's
`gas_used ≤ tx.gas`), and stays within the block gas limit; the remaining
`gas_available` never underflows (it stays between 0 and the limit); and
the `gas_used` returned by `apply_body` is `limit − gas_available`, at most
the block gas limit. -/
theorem gas_accounting (callf : Call)
    (hcall : ∀ sender target data value gas depth env,
      (callf sender target data value gas depth env).1 ≤ gas)
    (bh : List Hash32) (cb : Address) (bn gl t d : Nat)
    (txs : List Transaction) (st : State)
    (hgas : ∀ tx ∈ txs, tx.gas < U256_MOD)
    (ga' : Nat) (receipts : List Receipt) (st' : State)
    (hrun : apply_body_loop callf bh cb bn gl t d txs gl [] st
      = (.ok (ga', receipts), st')) :
    CumsOk gl 0 receipts txs = true ∧ ga' ≤ gl ∧
    ∀ ommers, bodyGasUsed (apply_body callf st bh cb bn gl t d txs ommers).1
      = some (gl - ga') ∧ gl - ga' ≤ gl := by
  obtain ⟨hle, new, hnew, hcums⟩ := apply_body_loop_gas_invariant callf hcall
    bh cb bn gl t d txs gl [] st ga' receipts st' hgas le_rfl hrun
  have hrecn : receipts = new := by simpa using hnew
  refine ⟨?_, hle, ?_⟩
  · rw [hrecn]
    have : gl - gl = 0 := Nat.sub_self gl
    rw [← this]
    exact hcums
  · intro ommers
    unfold apply_body
    rw [hrun]
    exact ⟨rfl, Nat.sub_le _ _⟩

/-- A transaction with two data bytes (one zero, one non-zero), so its
intrinsic cost is `21000 + 4 + 68 = 21072 < 30000`. -/
def c10Tx : Transaction :=
  { nonce := 0, gas_price := 1, gas := 30000, to_addr := some 2, value := 0,
    data := [0, 1], v := 27, r := 3, s := 4 }

/-- The sender address recovered from `c10Tx`. -/
def c10Sender : Address :=
  match recover_sender c10Tx with
  | .ok a => a
  | .error _ => 0

/-- A state funding `c10Tx`'s sender. -/
def c10State : State :=
  [(c10Sender, { nonce := 0, balance := 10 ^ 18, code := [] })]

/-- The concrete loop run used by the C10 witness. -/
def c10Run : Except Err (Nat × List Receipt) × State :=
  apply_body_loop trivialCall [] 7 1 100000 5 131072 [c10Tx] 100000 [] c10State

/-- The final `gas_available` of `c10Run`. -/
def c10Ga : Nat :=
  match c10Run.1 with
  | .ok (ga, _) => ga
  | .error _ => 0

/-- The receipts of `c10Run`. -/
def c10Receipts : List Receipt :=
  match c10Run.1 with
  | .ok (_, rs) => rs
  | .error _ => []

/-- C10 witness: the gas-accounting invariant instantiated on a concrete
one-transaction run under the trivial collaborator. -/
theorem gas_accounting_witness :
    CumsOk 100000 0 c10Receipts [c10Tx] = true ∧ c10Ga ≤ 100000 ∧
    bodyGasUsed (apply_body trivialCall c10State [] 7 1 100000 5 131072
        [c10Tx] []).1
      = some (100000 - c10Ga) ∧ 100000 - c10Ga ≤ 100000 :=
  have h := gas_accounting trivialCall (fun _ _ _ _ g _ _ => Nat.le_refl g)
    [] 7 1 100000 5 131072 [c10Tx] c10State (by decide) c10Ga c10Receipts
    c10Run.2 (by rfl)
  ⟨h.1, h.2.1, h.2.2 []⟩

end EthFrontier
